import Mathlib

/-!
Shallow embedding of the core of the `ai-document-sorter` repository
(`src/config.py`, `src/extractor.py`, `src/file_manager.py`, `src/main.py`),
together with theorems settling the specification claims about it.

Python strings are modelled as `List Char`; filesystem state is modelled
by an explicit occupancy predicate on paths; exceptions are modelled with
`Except`; the external classifier (the `analyzer` module) is abstracted as
a parameter, since only its call contract reaches the embedded code.
-/

namespace DocSorter

abbrev Str := List Char

/-- Characters replaced by an underscore in `FileSystemManager._sanitize_path_component`:
the two path separators and the reserved characters `< > : " | ? *`. -/
def invalidChar (c : Char) : Bool :=
  c = '/' || c = '\\' || c = '<' || c = '>' || c = ':' || c = '"' || c = '|' || c = '?' || c = '*'

/-- The per-character effect of the chain of `str.replace` calls in
`_sanitize_path_component`: each invalid character becomes an underscore. -/
def replaceChar (c : Char) : Char := if invalidChar c then '_' else c

/-- The character set of Python's `str.strip('. ')`. -/
def dotSpace (c : Char) : Bool := c = '.' || c = ' '

/-- Python's `str.strip('. ')`: drop the characters of the set from both ends. -/
def stripDotSpace (l : Str) : Str := (l.dropWhile dotSpace).rdropWhile dotSpace

/-- Embedding of `FileSystemManager._sanitize_path_component` from
`src/file_manager.py`: replace separators and reserved characters with `_`,
strip leading/trailing dots and spaces, and fall back to `"Unnamed"` when empty. -/
def _sanitize_path_component (name : Str) : Str :=
  if stripDotSpace (name.map replaceChar) = [] then "Unnamed".data
  else stripDotSpace (name.map replaceChar)

/-- Boundary property asserted by claim C2, with "whitespace" read literally:
no leading or trailing dot or whitespace character in the sanitized name. -/
def noEdgeDotOrWhitespace (l : Str) : Bool :=
  (match l.head? with
   | none => true
   | some c => !(c = '.' || c.isWhitespace)) &&
  (match l.getLast? with
   | none => true
   | some c => !(c = '.' || c.isWhitespace))

/-- Path join `dir / name`, rendered with a forward slash as `pathlib` does. -/
def pathJoin (dir name : Str) : Str := dir ++ '/' :: name

/-- The k-th candidate path tried by `_resolve_target_path`:
`dir/{base}{ext}` for `k = 0` and `dir/{base}_{k}{ext}` for `k ≥ 1`. -/
def attemptPath (dir base ext : Str) (k : Nat) : Str :=
  if k = 0 then pathJoin dir (base ++ ext)
  else pathJoin dir (base ++ '_' :: (Nat.repr k).data ++ ext)

/-- The conflict-resolution `while` loop of
`FileSystemManager._resolve_target_path` (src/file_manager.py). The filesystem
is modelled by the occupancy predicate `occ` standing for `Path.exists`. On
entry `target` holds the current candidate and `counter` the next suffix to
try; the loop stops as soon as the candidate is free, or breaks once the
incremented counter exceeds 1000, returning the last attempted name. -/
def resolveLoop (occ : Str → Bool) (dir base ext : Str) (target : Str) (counter : Nat) : Str :=
  if occ target then
    if _h : counter + 1 > 1000 then
      pathJoin dir (base ++ '_' :: (Nat.repr counter).data ++ ext)
    else
      resolveLoop occ dir base ext
        (pathJoin dir (base ++ '_' :: (Nat.repr counter).data ++ ext)) (counter + 1)
  else target
termination_by 1001 - counter
decreasing_by omega

/-- Embedding of `FileSystemManager._resolve_target_path` (src/file_manager.py):
sanitize the filename, start from `dir/{safe}{ext}`, and resolve conflicts with
the numeric-suffix loop starting at counter 1. -/
def _resolve_target_path (occ : Str → Bool) (dir filename ext : Str) : Str :=
  resolveLoop occ dir (_sanitize_path_component filename) ext
    (pathJoin dir (_sanitize_path_component filename ++ ext)) 1

/-- Default of `Config.MIN_CONTENT_LENGTH` (src/config.py). -/
def MIN_CONTENT_LENGTH : Nat := 50

/-- Python's `str.strip()` whitespace test, for the ASCII whitespace characters. -/
def pySpace (c : Char) : Bool :=
  c = ' ' || c = '\t' || c = '\n' || c = '\r' || c = '\x0b' || c = '\x0c'

/-- Python's `str.strip()` with no arguments: trim whitespace from both ends. -/
def pyStrip (l : Str) : Str := (l.dropWhile pySpace).rdropWhile pySpace

/-- The page loop of `ContentExtractor._extract_pdf_text` (src/extractor.py).
A page outcome `Except.error` models `page.extract_text()` raising; since the
single `try` block wraps the whole loop, a raised exception ends the loop and
the method returns the text accumulated so far. A non-empty extracted text is
appended followed by a newline; empty or `None` results are skipped. -/
def pdfLoop : List (Except Unit Str) → Str → Str
  | [], acc => acc
  | .error _ :: _, acc => acc
  | .ok s :: rest, acc => pdfLoop rest (if s = [] then acc else acc ++ s ++ ['\n'])

/-- Embedding of `ContentExtractor._extract_pdf_text`: opening the reader may
itself raise (caught, yielding the empty string), else the pages are walked. -/
def _extract_pdf_text (reader : Except Unit (List (Except Unit Str))) : Str :=
  match reader with
  | .error _ => []
  | .ok pages => pdfLoop pages []

/-- The image loop of `ContentExtractor._extract_via_ocr` (src/extractor.py):
OCR text is appended verbatim; a raised exception on one image ends the loop,
the handler returning the text accumulated so far. -/
def ocrLoop : List (Except Unit Str) → Str → Str
  | [], acc => acc
  | .error _ :: _, acc => acc
  | .ok s :: rest, acc => ocrLoop rest (acc ++ s)

/-- Embedding of `ContentExtractor._extract_via_ocr`: converting the file to
images may raise (caught, yielding the empty string), else images are walked. -/
def _extract_via_ocr (images : Except Unit (List (Except Unit Str))) : Str :=
  match images with
  | .error _ => []
  | .ok imgs => ocrLoop imgs []

/-- Environment of one `extract_content` call: the existence check at entry,
whether the lowercased suffix equals ".pdf", and the engine outcomes. -/
structure ExtractEnv where
  file_exists : Bool
  is_pdf : Bool
  reader : Except Unit (List (Except Unit Str))
  images : Except Unit (List (Except Unit Str))

/-- Stage 1 of `extract_content`: native text for PDFs, empty otherwise. -/
def nativeStageText (env : ExtractEnv) : Str :=
  if env.is_pdf then _extract_pdf_text env.reader else []

/-- Instrumented embedding of `ContentExtractor.extract_content`
(src/extractor.py): `Except.error` models the `FileNotFoundError` raised when
the file is missing; otherwise the extracted text is returned together with a
flag recording whether the OCR fallback stage was invoked. -/
def extract_content_run (env : ExtractEnv) (min_content_length : Nat) :
    Except Unit (Str × Bool) :=
  if env.file_exists = false then .error ()
  else if (pyStrip (nativeStageText env)).length < min_content_length then
    .ok (nativeStageText env ++ _extract_via_ocr env.images, true)
  else .ok (nativeStageText env, false)

/-- `ContentExtractor.extract_content`: the returned text alone. -/
def extract_content (env : ExtractEnv) (min_content_length : Nat) : Except Unit Str :=
  (extract_content_run env min_content_length).map Prod.fst

/-- Text of all non-failing pages, as claim C4 reads the code: every page
other than a failing one contributes its (non-empty) text plus a newline. -/
def allPagesText (pages : List (Except Unit Str)) : Str :=
  (pages.map fun p =>
    match p with
    | .ok s => if s = [] then [] else s ++ ['\n']
    | .error _ => []).flatten

/-- Whether a page outcome is a successful extraction. -/
def pageOk (p : Except Unit Str) : Bool :=
  match p with
  | .ok _ => true
  | .error _ => false

/-- Supported extensions from `Config.SUPPORTED_EXTENSIONS` (src/config.py). -/
def SUPPORTED_EXTENSIONS : List Str := [".pdf".data, ".jpg".data, ".png".data, ".jpeg".data]

/-- Python's `str.lower()` as applied to extensions (ASCII case folding). -/
def lowerStr (l : Str) : Str := l.map Char.toLower

/-- Embedding of `ContentExtractor.is_supported_file` (src/extractor.py):
membership of the lowercased suffix in the supported set. -/
def is_supported_file (suffix : Str) : Bool :=
  decide (lowerStr suffix ∈ SUPPORTED_EXTENSIONS)

/-- The filesystem-facing attributes of one candidate path, mirroring the
`pathlib.Path` queries made by `validate_source_file`. -/
structure FileInfo where
  name : Str
  suffix : Str
  exists_ : Bool
  is_file : Bool

/-- Embedding of `FileSystemManager.validate_source_file` (src/file_manager.py):
reject hidden files, iCloud placeholders, unsupported (lowercased) extensions,
and paths that are not existing regular files. -/
def validate_source_file (f : FileInfo) : Bool :=
  if f.name.head? = some '.' then false
  else if ".icloud".data.isSuffixOf f.name then false
  else if lowerStr f.suffix ∉ SUPPORTED_EXTENSIONS then false
  else if f.exists_ = false ∨ f.is_file = false then false
  else true

/-- Modelled from the spec: `DocumentMetadata` is declared in the `analyzer`
module, which is not present under src/ (only imported); per spec section 3 it
carries the classifier's category and suggested filename (no extension). -/
structure DocumentMetadata where
  category : Str
  filename : Str

/-- Embedding of `FileSystemManager.move_file` (src/file_manager.py): `none`
models a `None` return. `occ` models `Path.exists` in the target tree,
`src_exists` the existence re-check on the source path, and `move_ok` whether
directory creation and `shutil.move` succeed (their exceptions are caught by
the method's handler, which returns `None`). -/
def move_file (occ : Str → Bool) (root : Str) (src_exists : Bool) (src_suffix : Str)
    (md : DocumentMetadata) (move_ok : Bool) : Option Str :=
  if src_exists = false then none
  else if move_ok then
    some (_resolve_target_path occ (pathJoin root (_sanitize_path_component md.category))
      md.filename src_suffix)
  else none

/-- The observable operations of a run, recorded in traces. -/
inductive Action where
  | probe : Action
  | extract : Action
  | classify : Action
  | move : Action
  | monitorStart : Action
deriving DecidableEq

/-- Environment of one `DocumentProcessor.process_file` call (src/main.py):
the candidate's filesystem attributes, the extraction environment, the
classifier outcome (abstract — the `analyzer` module is not under src/, so an
arbitrary function from content to outcome is quantified over), and the
file-manager outcomes. -/
structure PipelineEnv where
  file : FileInfo
  pdf : ExtractEnv
  analyze : Str → Except Unit DocumentMetadata
  occ : Str → Bool
  root : Str
  src_exists_at_move : Bool
  move_ok : Bool
  min_content_length : Nat

/-- Result of one `process_file` call: the returned boolean and the trace of
operations that were invoked, in order. -/
structure ProcResult where
  success : Bool
  trace : List Action

/-- Instrumented embedding of `DocumentProcessor.process_file` (src/main.py):
validate, then inside a `try` extract, classify and move; any raised error
yields a `False` result. The trace records which operations were invoked. -/
def process_file (e : PipelineEnv) : ProcResult :=
  if validate_source_file e.file = false then ⟨false, []⟩
  else
    match extract_content e.pdf e.min_content_length with
    | .error _ => ⟨false, [.extract]⟩
    | .ok content =>
      match e.analyze content with
      | .error _ => ⟨false, [.extract, .classify]⟩
      | .ok md =>
        match move_file e.occ e.root e.src_exists_at_move e.file.suffix md e.move_ok with
        | some _ => ⟨true, [.extract, .classify, .move]⟩
        | none => ⟨false, [.extract, .classify, .move]⟩

/-- Environment of start-up (`verify_prerequisites` and `main`, src/main.py):
configuration validity (`Config.validate`), directory creation
(`Config.ensure_directories` not raising), the classifier liveness probe
result (abstract boolean — `OllamaAnalyzer.check_connection` lives in the
`analyzer` module, not under src/), and whether the monitor's blocking run
ends cleanly. -/
structure StartupEnv where
  config_valid : Bool
  ensure_dirs_ok : Bool
  check_connection : Bool
  monitor_ok : Bool

/-- Instrumented embedding of `verify_prerequisites` (src/main.py): the
returned boolean together with the probe calls made along the way. -/
def verify_prerequisites (env : StartupEnv) : Bool × List Action :=
  if env.config_valid = false then (false, [])
  else if env.ensure_dirs_ok = false then (false, [])
  else (env.check_connection, [Action.probe])

/-- Instrumented embedding of `main` (src/main.py): the exit code and the
trace of observable operations. Per-file processing happens only inside the
monitor's run (initial scan, then live events), strictly after the monitor is
started; an exception escaping the monitor yields exit code 1. -/
def main_run (env : StartupEnv) (files : List PipelineEnv) : Nat × List Action :=
  if (verify_prerequisites env).1 = false then (1, (verify_prerequisites env).2)
  else
    ((if env.monitor_ok then 0 else 1),
      (verify_prerequisites env).2 ++ Action.monitorStart ::
        (files.map fun fe => (process_file fe).trace).flatten)

example : _sanitize_path_component "a/b:c".data = "a_b_c".data := by decide

example : _sanitize_path_component "...".data = "Unnamed".data := by decide

example : _sanitize_path_component " report. ".data = "report".data := by decide

/-- The replacement map never produces a separator or reserved character. -/
lemma invalidChar_replaceChar (c : Char) : invalidChar (replaceChar c) = false := by
  unfold replaceChar
  split
  · decide
  · rename_i h
    simpa using h

lemma replaceChar_eq_self {c : Char} (h : invalidChar c = false) : replaceChar c = c := by
  simp [replaceChar, h]

lemma mem_of_mem_stripDotSpace {c : Char} {l : Str} (h : c ∈ stripDotSpace l) : c ∈ l := by
  unfold stripDotSpace at h
  have h1 : c ∈ l.dropWhile dotSpace :=
    ( List.rdropWhile_prefix dotSpace (l.dropWhile dotSpace)).sublist.subset h
  exact (List.dropWhile_suffix dotSpace).sublist.subset h1

lemma stripDotSpace_head {l : Str} {c : Char} (h : (stripDotSpace l).head? = some c) :
    dotSpace c = false := by
  unfold stripDotSpace at h
  obtain ⟨t, ht⟩ := List.rdropWhile_prefix dotSpace (l.dropWhile dotSpace)
  have h2 : (l.dropWhile dotSpace).head? = some c := by
    rw [← ht, List.head?_append, h]
    rfl
  have h3 := List.head?_dropWhile_not dotSpace l
  rw [h2] at h3
  exact h3

lemma stripDotSpace_last {l : Str} {c : Char} (h : (stripDotSpace l).getLast? = some c) :
    dotSpace c = false := by
  unfold stripDotSpace at h
  have hne : (l.dropWhile dotSpace).rdropWhile dotSpace ≠ [] := by
    intro h0
    rw [h0] at h
    simp at h
  have h1 := List.rdropWhile_last_not dotSpace (l.dropWhile dotSpace) hne
  rw [List.getLast?_eq_getLast _ hne] at h
  have h2 : ((l.dropWhile dotSpace).rdropWhile dotSpace).getLast hne = c := by
    injection h
  rw [h2] at h1
  simpa using h1

lemma stripDotSpace_eq_self {l : Str}
    (hh : ∀ c, l.head? = some c → dotSpace c = false)
    (hl : ∀ c, l.getLast? = some c → dotSpace c = false) :
    stripDotSpace l = l := by
  unfold stripDotSpace
  have h1 : l.dropWhile dotSpace = l := by
    cases l with
    | nil => simp
    | cons a t =>
      rw [List.dropWhile_cons_of_neg]
      simp [hh a rfl]
  rw [h1]
  rw [List.rdropWhile_eq_self_iff]
  intro hne
  simp [hl _ (List.getLast?_eq_getLast l hne)]

lemma sanitize_ne_nil (s : Str) : _sanitize_path_component s ≠ [] := by
  unfold _sanitize_path_component
  split
  · decide
  · assumption

lemma sanitize_validChars (s : Str) :
    ∀ c ∈ _sanitize_path_component s, invalidChar c = false := by
  intro c hc
  unfold _sanitize_path_component at hc
  split at hc
  · rw [show "Unnamed".data = ['U', 'n', 'n', 'a', 'm', 'e', 'd'] from rfl] at hc
    simp at hc
    rcases hc with rfl | rfl | rfl | rfl | rfl | rfl | rfl <;> decide
  · have h1 := mem_of_mem_stripDotSpace hc
    obtain ⟨a, _, rfl⟩ := List.mem_map.mp h1
    exact invalidChar_replaceChar a

lemma sanitize_head (s : Str) :
    ∀ c, (_sanitize_path_component s).head? = some c → dotSpace c = false := by
  intro c h
  unfold _sanitize_path_component at h
  split at h
  · rw [show "Unnamed".data = ['U', 'n', 'n', 'a', 'm', 'e', 'd'] from rfl] at h
    simp at h
    subst h
    decide
  · exact stripDotSpace_head h

lemma sanitize_last (s : Str) :
    ∀ c, (_sanitize_path_component s).getLast? = some c → dotSpace c = false := by
  intro c h
  unfold _sanitize_path_component at h
  split at h
  · rw [show "Unnamed".data = ['U', 'n', 'n', 'a', 'm', 'e', 'd'] from rfl] at h
    have h2 : (['U', 'n', 'n', 'a', 'm', 'e', 'd'] : Str).getLast? = some 'd' := rfl
    rw [h2] at h
    have h3 : c = 'd' := by injection h with h4; exact h4.symm
    subst h3
    decide
  · exact stripDotSpace_last h

/-- A string already in sanitized shape is a fixed point of the sanitizer. -/
lemma sanitize_fix {r : Str} (hne : r ≠ []) (hv : ∀ c ∈ r, invalidChar c = false)
    (hh : ∀ c, r.head? = some c → dotSpace c = false)
    (hl : ∀ c, r.getLast? = some c → dotSpace c = false) :
    _sanitize_path_component r = r := by
  unfold _sanitize_path_component
  have hmap : r.map replaceChar = r := by
    rw [List.map_congr_left fun a ha => replaceChar_eq_self (hv a ha)]
    exact List.map_id r
  rw [hmap, stripDotSpace_eq_self hh hl]
  simp [hne]

lemma invalidChar_iff (c : Char) :
    invalidChar c = true ↔ c ∈ (['/', '\\', '<', '>', ':', '"', '|', '?', '*'] : Str) := by
  simp [invalidChar]
  tauto

/-- C2 counterexample: the sanitizer strips only dots and spaces, not all
whitespace. On input `"a\t"` it returns `"a\t"` unchanged, which ends in a
whitespace character, refuting the claim that the result has no leading or
trailing dots or whitespace. -/
theorem sanitize_trailing_tab_counterexample :
    _sanitize_path_component ['a', '\t'] = ['a', '\t'] ∧
    noEdgeDotOrWhitespace (_sanitize_path_component ['a', '\t']) = false := by
  decide

/-- C2 (amended): for every input string, `_sanitize_path_component` returns a
string containing no path separator and none of the reserved characters
`< > : " | ? *`, with no leading or trailing dots or space characters (the code
strips only `'.'` and `' '`, not all whitespace), and the result is never empty:
if stripping the replaced string would yield the empty string, the fixed
placeholder "Unnamed" is returned instead. -/
theorem sanitize_output_sound (s : Str) :
    _sanitize_path_component s ≠ [] ∧
    (∀ c ∈ _sanitize_path_component s,
       c ∉ (['/', '\\', '<', '>', ':', '"', '|', '?', '*'] : Str)) ∧
    (∀ c, (_sanitize_path_component s).head? = some c → c ≠ '.' ∧ c ≠ ' ') ∧
    (∀ c, (_sanitize_path_component s).getLast? = some c → c ≠ '.' ∧ c ≠ ' ') ∧
    (stripDotSpace (s.map replaceChar) = [] →
       _sanitize_path_component s = "Unnamed".data) := by
  refine ⟨sanitize_ne_nil s, ?_, ?_, ?_, ?_⟩
  · intro c hc hmem
    have h1 := sanitize_validChars s c hc
    rw [(invalidChar_iff c).mpr hmem] at h1
    simp at h1
  · intro c h
    have h1 := sanitize_head s c h
    constructor <;> (intro h2; subst h2; simp [dotSpace] at h1)
  · intro c h
    have h1 := sanitize_last s c h
    constructor <;> (intro h2; subst h2; simp [dotSpace] at h1)
  · intro h
    unfold _sanitize_path_component
    simp [h]

theorem sanitize_output_sound_witness :
    _sanitize_path_component " .a/ ".data ≠ [] ∧ ('a' ≠ '.' ∧ 'a' ≠ ' ') := by
  have h := sanitize_output_sound " .a/ ".data
  exact ⟨h.1, h.2.2.1 'a' (by decide)⟩

/-- C9: sanitization is idempotent: applying `_sanitize_path_component` to its
own output returns the output unchanged. -/
theorem sanitize_idempotent (s : Str) :
    _sanitize_path_component (_sanitize_path_component s) = _sanitize_path_component s :=
  sanitize_fix (sanitize_ne_nil s) (sanitize_validChars s) (sanitize_head s) (sanitize_last s)

lemma attemptPath_succ (dir base ext : Str) (j : Nat) :
    pathJoin dir (base ++ '_' :: (Nat.repr (j + 1)).data ++ ext) =
      attemptPath dir base ext (j + 1) := by
  simp [attemptPath]

/-- If every candidate before `k` is occupied and candidate `k` is free
(`k ≤ 1000`), the loop started at any candidate `j ≤ k` returns candidate `k`. -/
lemma resolveLoop_finds (occ : Str → Bool) (dir base ext : Str) (k : Nat) (hk : k ≤ 1000)
    (hocc : ∀ i, i < k → occ (attemptPath dir base ext i) = true)
    (hfree : occ (attemptPath dir base ext k) = false) :
    ∀ n j, k - j ≤ n → j ≤ k →
      resolveLoop occ dir base ext (attemptPath dir base ext j) (j + 1) =
        attemptPath dir base ext k := by
  intro n
  induction n with
  | zero =>
    intro j hn hj
    have hjk : j = k := by omega
    subst hjk
    rw [resolveLoop]
    simp [hfree]
  | succ m ih =>
    intro j hn hj
    by_cases hjk : j = k
    · subst hjk
      rw [resolveLoop]
      simp [hfree]
    · have hj2 : j < k := by omega
      rw [resolveLoop]
      rw [hocc j hj2]
      simp only [if_true]
      split
      · rename_i hcap
        have hj1 : j + 1 = k := by omega
        rw [attemptPath_succ, hj1]
      · rw [attemptPath_succ]
        exact ih (j + 1) (by omega) (by omega)

/-- If every candidate up to 1000 is occupied, the loop breaks at the cap and
returns candidate 1000 even though it is occupied. -/
lemma resolveLoop_cap (occ : Str → Bool) (dir base ext : Str)
    (hocc : ∀ i, i ≤ 1000 → occ (attemptPath dir base ext i) = true) :
    ∀ n j, 999 - j ≤ n → j ≤ 999 →
      resolveLoop occ dir base ext (attemptPath dir base ext j) (j + 1) =
        attemptPath dir base ext 1000 := by
  intro n
  induction n with
  | zero =>
    intro j hn hj
    have hj9 : j = 999 := by omega
    subst hj9
    rw [resolveLoop]
    rw [hocc 999 (by omega)]
    simp only [if_true]
    split
    · rw [show (999 : Nat) + 1 = 1000 from rfl, attemptPath_succ]
    · rename_i hcap
      omega
  | succ m ih =>
    intro j hn hj
    by_cases hj9 : j = 999
    · subst hj9
      rw [resolveLoop]
      rw [hocc 999 (by omega)]
      simp only [if_true]
      split
      · rw [show (999 : Nat) + 1 = 1000 from rfl, attemptPath_succ]
      · rename_i hcap
        omega
    · have hj2 : j < 999 := by omega
      rw [resolveLoop]
      rw [hocc j (by omega)]
      simp only [if_true]
      split
      · rename_i hcap
        omega
      · rw [attemptPath_succ]
        exact ih (j + 1) (by omega) (by omega)

lemma resolve_eq_loop (occ : Str → Bool) (dir filename ext : Str) :
    _resolve_target_path occ dir filename ext =
      resolveLoop occ dir (_sanitize_path_component filename) ext
        (attemptPath dir (_sanitize_path_component filename) ext 0) (0 + 1) := by
  rfl

/-- Whenever some candidate within the cap is free, the returned path is free. -/
lemma resolve_result_free (occ : Str → Bool) (dir filename ext : Str)
    (h : ∃ k, k ≤ 1000 ∧
      occ (attemptPath dir (_sanitize_path_component filename) ext k) = false) :
    occ (_resolve_target_path occ dir filename ext) = false := by
  classical
  have hex : ∃ k, occ (attemptPath dir (_sanitize_path_component filename) ext k) = false := by
    obtain ⟨k, _, hk⟩ := h
    exact ⟨k, hk⟩
  set k0 := Nat.find hex with hk0
  obtain ⟨k, hkle, hkfree⟩ := h
  have hk0le : k0 ≤ k := Nat.find_min' hex hkfree
  have hfree0 : occ (attemptPath dir (_sanitize_path_component filename) ext k0) = false :=
    Nat.find_spec hex
  have hbefore : ∀ i, i < k0 →
      occ (attemptPath dir (_sanitize_path_component filename) ext i) = true := by
    intro i hi
    have := Nat.find_min hex hi
    simpa using this
  rw [resolve_eq_loop]
  rw [resolveLoop_finds occ dir _ ext k0 (by omega) hbefore hfree0 k0 0 (by omega) (by omega)]
  exact hfree0

/-- C1: for colliding sanitized names, `_resolve_target_path` is deterministic
and picks the first free candidate: the base name `dir/{name}{ext}` when free,
otherwise the lowest unused numeric suffix `_1`, `_2`, ... up to the cap of
1000 attempts; past the cap it proceeds with the last attempted name `_1000`
even if that path exists. Consequently two files resolved in sequence (the
second seeing the first's placement as occupied) land on distinct paths as long
as the cap is not exhausted. -/
theorem resolve_target_path_conflict_resolution (occ : Str → Bool) (dir filename ext : Str) :
    (occ (attemptPath dir (_sanitize_path_component filename) ext 0) = false →
       _resolve_target_path occ dir filename ext =
         attemptPath dir (_sanitize_path_component filename) ext 0) ∧
    (∀ k, k ≤ 1000 →
       (∀ i, i < k → occ (attemptPath dir (_sanitize_path_component filename) ext i) = true) →
       occ (attemptPath dir (_sanitize_path_component filename) ext k) = false →
       _resolve_target_path occ dir filename ext =
         attemptPath dir (_sanitize_path_component filename) ext k) ∧
    ((∀ i, i ≤ 1000 → occ (attemptPath dir (_sanitize_path_component filename) ext i) = true) →
       _resolve_target_path occ dir filename ext =
         attemptPath dir (_sanitize_path_component filename) ext 1000) ∧
    (∀ occ2 : Str → Bool,
       occ2 (_resolve_target_path occ dir filename ext) = true →
       (∃ k, k ≤ 1000 ∧
          occ2 (attemptPath dir (_sanitize_path_component filename) ext k) = false) →
       _resolve_target_path occ2 dir filename ext ≠
         _resolve_target_path occ dir filename ext) := by
  refine ⟨?_, ?_, ?_, ?_⟩
  · intro hfree
    rw [resolve_eq_loop]
    exact resolveLoop_finds occ dir _ ext 0 (by omega) (by omega) hfree 0 0 (by omega) (by omega)
  · intro k hk hocc hfree
    rw [resolve_eq_loop]
    exact resolveLoop_finds occ dir _ ext k hk hocc hfree k 0 (by omega) (by omega)
  · intro hocc
    rw [resolve_eq_loop]
    exact resolveLoop_cap occ dir _ ext hocc 999 0 (by omega) (by omega)
  · intro occ2 hocc2 hfree2
    have h2 := resolve_result_free occ2 dir filename ext hfree2
    intro heq
    rw [heq] at h2
    rw [hocc2] at h2
    exact Bool.noConfusion h2

theorem resolve_target_path_conflict_resolution_witness :
    _resolve_target_path (fun p => decide (p = "r/Invoices/Acme.pdf".data))
      "r/Invoices".data "Acme".data ".pdf".data = "r/Invoices/Acme_1.pdf".data := by
  have h := (resolve_target_path_conflict_resolution
      (fun p => decide (p = "r/Invoices/Acme.pdf".data))
      "r/Invoices".data "Acme".data ".pdf".data).2.1
  have h2 := h 1 (by omega)
      (by
        intro i hi
        have h3 : i = 0 := by omega
        subst h3
        decide)
      (by decide)
  rw [h2]
  decide

/-- C3: for every existing file, the OCR fallback is invoked if and only if
the stripped length of the stage-1 text is strictly below the configured
minimum; when OCR runs its output is appended to the stage-1 text, otherwise
the stage-1 text is returned unchanged; and for every non-PDF file the stage-1
text is empty, so with a positive threshold (the default is 50) OCR runs. -/
theorem ocr_fallback_iff (env : ExtractEnv) (minLen : Nat) (h : env.file_exists = true) :
    ∃ text ocr, extract_content_run env minLen = .ok (text, ocr) ∧
      (ocr = true ↔ (pyStrip (nativeStageText env)).length < minLen) ∧
      (ocr = true → text = nativeStageText env ++ _extract_via_ocr env.images) ∧
      (ocr = false → text = nativeStageText env) ∧
      (env.is_pdf = false → nativeStageText env = [] ∧ (0 < minLen → ocr = true)) := by
  unfold extract_content_run
  rw [if_neg (by simp [h])]
  by_cases hlt : (pyStrip (nativeStageText env)).length < minLen
  · refine ⟨_, true, if_pos hlt, by simpa using hlt, fun _ => rfl, ?_, ?_⟩
    · intro h0
      exact absurd h0 (by simp)
    · intro hp
      exact ⟨by simp [nativeStageText, hp], fun _ => rfl⟩
  · refine ⟨_, false, if_neg hlt, by simpa using hlt, ?_, fun _ => rfl, ?_⟩
    · intro h0
      exact absurd h0 (by simp)
    · intro hp
      refine ⟨by simp [nativeStageText, hp], ?_⟩
      intro hmin
      exfalso
      apply hlt
      simpa [nativeStageText, hp, pyStrip] using hmin

theorem ocr_fallback_iff_witness :
    ∃ text, extract_content_run
      ⟨true, true, .ok [.ok "short".data], .ok [.ok "scanned text".data]⟩ 50 =
        .ok (text, true) := by
  obtain ⟨text, ocr, h1, h2, _, _, _⟩ := ocr_fallback_iff
      ⟨true, true, .ok [.ok "short".data], .ok [.ok "scanned text".data]⟩ 50 rfl
  have h3 : ocr = true := h2.mpr (by decide)
  subst h3
  exact ⟨text, h1⟩

/-- C4 counterexample: with three pages where only the second raises, the code
returns just the first page's text — the third page does not contribute,
because the single `try` block wraps the whole page loop; the claim's reading
(all non-failing pages contribute) would give a different result. -/
theorem pdf_page_failure_counterexample :
    _extract_pdf_text (.ok [.ok "abc".data, .error (), .ok "def".data]) = "abc\n".data ∧
    allPagesText [.ok "abc".data, .error (), .ok "def".data] = "abc\ndef\n".data ∧
    _extract_pdf_text (.ok [.ok "abc".data, .error (), .ok "def".data]) ≠
      allPagesText [.ok "abc".data, .error (), .ok "def".data] := by
  decide

lemma pdfLoop_eq (pages : List (Except Unit Str)) (acc : Str) :
    pdfLoop pages acc = acc ++ allPagesText (pages.takeWhile pageOk) := by
  induction pages generalizing acc with
  | nil => simp [pdfLoop, allPagesText]
  | cons p rest ih =>
    cases p with
    | error e => simp [pdfLoop, allPagesText, pageOk, List.takeWhile_cons]
    | ok s =>
      rw [show pdfLoop (.ok s :: rest) acc
            = pdfLoop rest (if s = [] then acc else acc ++ s ++ ['\n']) from rfl]
      rw [ih]
      simp only [List.takeWhile_cons, pageOk, if_pos rfl]
      by_cases hs : s = [] <;> simp [hs, allPagesText, List.append_assoc]

/-- C4 (amended): native PDF extraction never raises. A failure opening the
file yields the empty string, and a failure extracting one page's text ends
extraction there: exactly the pages before the first failing page contribute
(the failing page and all later pages are skipped), because the single
exception handler wraps the whole page loop. -/
theorem pdf_text_degrades (pages : List (Except Unit Str)) :
    _extract_pdf_text (.ok pages) = allPagesText (pages.takeWhile pageOk) ∧
    _extract_pdf_text (.error ()) = [] := by
  constructor
  · rw [show _extract_pdf_text (.ok pages) = pdfLoop pages [] from rfl]
    rw [pdfLoop_eq]
    simp
  · rfl

/-- C5: `extract_content` fails if and only if the file does not exist at the
given path — checked once at entry, before any engine outcome is consulted —
and for every existing file it returns a (possibly empty) string, whatever the
native-extraction and OCR outcomes are: their failures are degraded internally. -/
theorem extract_content_error_iff (env : ExtractEnv) (minLen : Nat) :
    (extract_content env minLen = .error () ↔ env.file_exists = false) ∧
    (env.file_exists = true → ∃ s, extract_content env minLen = .ok s) := by
  unfold extract_content extract_content_run
  cases henv : env.file_exists with
  | false => simp [Except.map]
  | true =>
    constructor
    · simp only [Bool.true_eq_false, if_neg (by simp : ¬(true = false))]
      by_cases hlt : (pyStrip (nativeStageText env)).length < minLen <;>
        simp [hlt, Except.map]
    · intro _
      by_cases hlt : (pyStrip (nativeStageText env)).length < minLen <;>
        simp [hlt, Except.map]

theorem extract_content_error_iff_witness :
    (∃ s, extract_content ⟨true, false, .ok [], .ok []⟩ 50 = .ok s) ∧
    extract_content ⟨false, false, .ok [], .ok []⟩ 50 = .error () := by
  constructor
  · exact (extract_content_error_iff ⟨true, false, .ok [], .ok []⟩ 50).2 rfl
  · exact (extract_content_error_iff ⟨false, false, .ok [], .ok []⟩ 50).1.mpr rfl

/-- C6: the move operation is invoked only after validation, extraction and
classification have all succeeded; for every file whose processing fails at or
before classification, the move is never invoked, so the source file stays at
its original path (the pipeline has no delete operation at all: `move_file` is
its only filesystem mutation). -/
theorem no_move_before_classification (e : PipelineEnv) :
    (Action.move ∈ (process_file e).trace →
       validate_source_file e.file = true ∧
       ∃ content md, extract_content e.pdf e.min_content_length = .ok content ∧
         e.analyze content = .ok md) ∧
    ((validate_source_file e.file = false ∨
        extract_content e.pdf e.min_content_length = .error () ∨
        (∀ content, extract_content e.pdf e.min_content_length = .ok content →
           e.analyze content = .error ())) →
      Action.move ∉ (process_file e).trace) := by
  constructor
  · intro hmem
    unfold process_file at hmem
    split at hmem
    · exact absurd hmem (by decide)
    · rename_i hval
      rw [Bool.not_eq_false] at hval
      refine ⟨hval, ?_⟩
      split at hmem
      · exact absurd hmem (by decide)
      · rename_i content hcontent
        split at hmem
        · exact absurd hmem (by decide)
        · rename_i md hmd
          exact ⟨content, md, hcontent, hmd⟩
  · intro hfail hmem
    unfold process_file at hmem
    split at hmem
    · exact absurd hmem (by decide)
    · rename_i hval
      rw [Bool.not_eq_false] at hval
      rcases hfail with hfail | hfail | hfail
      · rw [hval] at hfail
        exact Bool.noConfusion hfail
      · rw [hfail] at hmem
        simp at hmem
      · split at hmem
        · exact absurd hmem (by decide)
        · rename_i content hcontent
          rw [hfail content hcontent] at hmem
          simp at hmem

theorem no_move_before_classification_witness :
    Action.move ∉ (process_file
      ⟨⟨"a.pdf".data, ".pdf".data, true, true⟩, ⟨true, true, .ok [], .ok []⟩,
        fun _ => .error (), fun _ => false, [], true, true, 50⟩).trace := by
  refine (no_move_before_classification _).2 (Or.inr (Or.inr ?_))
  intro content hcontent
  rfl

/-- C7: `process_file` attempts extraction exactly for the candidates passing
validation, and validation accepts exactly the candidates that are not hidden
(name starting with '.'), not iCloud placeholders (name ending in ".icloud"),
whose lowercased extension is in the supported set, and which are existing
regular files; every rejected candidate yields `False` with nothing invoked. -/
theorem validation_gates_extraction (e : PipelineEnv) :
    (validate_source_file e.file = true ↔
       (e.file.name.head? ≠ some '.' ∧
        ".icloud".data.isSuffixOf e.file.name = false ∧
        lowerStr e.file.suffix ∈ SUPPORTED_EXTENSIONS ∧
        e.file.exists_ = true ∧ e.file.is_file = true)) ∧
    (Action.extract ∈ (process_file e).trace ↔ validate_source_file e.file = true) ∧
    (validate_source_file e.file = false → process_file e = ⟨false, []⟩) := by
  refine ⟨?_, ?_, ?_⟩
  · unfold validate_source_file
    constructor
    · intro h
      split at h
      · exact Bool.noConfusion h
      · split at h
        · exact Bool.noConfusion h
        · split at h
          · exact Bool.noConfusion h
          · split at h
            · exact Bool.noConfusion h
            · rename_i h1 h2 h3 h4
              rw [not_or] at h4
              refine ⟨h1, Bool.eq_false_iff.mpr h2, by simpa using h3, ?_, ?_⟩
              · simpa using h4.1
              · simpa using h4.2
    · intro ⟨h1, h2, h3, h4, h5⟩
      rw [if_neg h1, if_neg (by simp [h2]), if_neg (by simp [h3]), if_neg (by simp [h4, h5])]
  · unfold process_file
    constructor
    · intro hmem
      by_contra hval
      rw [Bool.not_eq_true] at hval
      rw [if_pos hval] at hmem
      exact absurd hmem (by decide)
    · intro hval
      rw [if_neg (by simp [hval])]
      split
      · decide
      · split
        · decide
        · split <;> decide
  · intro hval
    unfold process_file
    rw [if_pos hval]

theorem validation_gates_extraction_witness :
    validate_source_file ⟨"scan.jpeg".data, ".jpeg".data, true, true⟩ = true ∧
    process_file ⟨⟨".hidden.pdf".data, ".pdf".data, true, true⟩,
      ⟨true, true, .ok [], .ok []⟩, fun _ => .error (), fun _ => false, [], true, true, 50⟩ =
        ⟨false, []⟩ := by
  constructor
  · exact (validation_gates_extraction
      ⟨⟨"scan.jpeg".data, ".jpeg".data, true, true⟩, ⟨true, true, .ok [], .ok []⟩,
        fun _ => .error (), fun _ => false, [], true, true, 50⟩).1.mpr
      ⟨by decide, by decide, by decide, rfl, rfl⟩
  · exact (validation_gates_extraction _).2.2 (by decide)

/-- Every candidate path tried by the resolution loop ends in the extension. -/
lemma suffix_resolveLoop (occ : Str → Bool) (dir base ext : Str) :
    ∀ n counter target, 1001 - counter ≤ n → ext <:+ target →
      ext <:+ resolveLoop occ dir base ext target counter := by
  intro n
  induction n with
  | zero =>
    intro c t hc ht
    rw [resolveLoop]
    split
    · rw [dif_pos (by omega)]
      exact ⟨dir ++ '/' :: (base ++ '_' :: (Nat.repr c).data), by simp [pathJoin]⟩
    · exact ht
  | succ m ih =>
    intro c t hc ht
    rw [resolveLoop]
    split
    · split
      · exact ⟨dir ++ '/' :: (base ++ '_' :: (Nat.repr c).data), by simp [pathJoin]⟩
      · exact ih (c + 1) _ (by omega) ⟨dir ++ '/' :: (base ++ '_' :: (Nat.repr c).data),
          by simp [pathJoin]⟩
    · exact ht

lemma suffix_resolve_target_path (occ : Str → Bool) (dir filename ext : Str) :
    ext <:+ _resolve_target_path occ dir filename ext := by
  unfold _resolve_target_path
  exact suffix_resolveLoop occ dir _ ext 1001 1
    (pathJoin dir (_sanitize_path_component filename ++ ext)) (by omega)
    ⟨dir ++ '/' :: _sanitize_path_component filename, by simp [pathJoin]⟩

/-- C10: the supported-extension test is case-insensitive — both
`validate_source_file` and `is_supported_file` lowercase the suffix before
testing membership, so the test's outcome depends only on the lowercased
suffix and upper/mixed-case variants of supported extensions pass — while a
successful `move_file` yields a target path that still ends in the source
file's original, case-preserved suffix. -/
theorem extension_case_insensitive (f : FileInfo) (occ : Str → Bool) (root : Str)
    (src_exists : Bool) (md : DocumentMetadata) (move_ok : Bool) :
    (validate_source_file f = true → is_supported_file f.suffix = true) ∧
    (∀ g : FileInfo, lowerStr g.suffix = lowerStr f.suffix →
       is_supported_file g.suffix = is_supported_file f.suffix) ∧
    (f.name.head? ≠ some '.' → ".icloud".data.isSuffixOf f.name = false →
       f.exists_ = true → f.is_file = true →
       (validate_source_file f = true ↔ lowerStr f.suffix ∈ SUPPORTED_EXTENSIONS)) ∧
    (∀ p, move_file occ root src_exists f.suffix md move_ok = some p → f.suffix <:+ p) := by
  refine ⟨?_, ?_, ?_, ?_⟩
  · intro h
    unfold validate_source_file at h
    unfold is_supported_file
    split at h
    · exact Bool.noConfusion h
    · split at h
      · exact Bool.noConfusion h
      · split at h
        · exact Bool.noConfusion h
        · rename_i hmem
          simpa using hmem
  · intro g hg
    unfold is_supported_file
    rw [hg]
  · intro h1 h2 h3 h4
    unfold validate_source_file
    rw [if_neg h1, if_neg (by simp [h2])]
    constructor
    · intro h
      split at h
      · exact Bool.noConfusion h
      · rename_i hmem
        simpa using hmem
    · intro hmem
      rw [if_neg (by simp [hmem]), if_neg (by simp [h3, h4])]
  · intro p hp
    unfold move_file at hp
    split at hp
    · exact Option.noConfusion hp
    · split at hp
      · have h5 : p = _resolve_target_path occ
            (pathJoin root (_sanitize_path_component md.category)) md.filename f.suffix := by
          injection hp with h6
          exact h6.symm
        rw [h5]
        exact suffix_resolve_target_path occ _ md.filename f.suffix
      · exact Option.noConfusion hp

theorem extension_case_insensitive_witness :
    validate_source_file ⟨"Scan.PDF".data, ".PDF".data, true, true⟩ = true ∧
    ∃ p, move_file (fun _ => false) "root".data true ".PDF".data
        ⟨"Invoices".data, "Acme".data⟩ true = some p ∧ (".PDF".data : Str) <:+ p := by
  have h := extension_case_insensitive ⟨"Scan.PDF".data, ".PDF".data, true, true⟩
      (fun _ => false) "root".data true ⟨"Invoices".data, "Acme".data⟩ true
  refine ⟨(h.2.2.1 (by decide) (by decide) rfl rfl).mpr (by decide), ?_⟩
  exact ⟨_, rfl, h.2.2.2 _ rfl⟩

lemma probe_not_in_process_trace (fe : PipelineEnv) :
    Action.probe ∉ (process_file fe).trace := by
  unfold process_file
  split
  · decide
  · split
    · decide
    · split
      · decide
      · split <;> decide

/-- C8: when the startup prerequisite check fails — configuration invalid,
directories not creatable, or the classifier connectivity probe returning
false — `main` exits with code 1 without starting the directory monitor, so no
file is extracted, classified or moved; and the connectivity probe is called
only during startup (at most once per run), never from per-file processing. -/
theorem startup_gate (env : StartupEnv) (files : List PipelineEnv) :
    ((env.config_valid = false ∨ env.ensure_dirs_ok = false ∨
        env.check_connection = false) →
       (main_run env files).1 = 1 ∧
       Action.monitorStart ∉ (main_run env files).2 ∧
       Action.extract ∉ (main_run env files).2 ∧
       Action.classify ∉ (main_run env files).2 ∧
       Action.move ∉ (main_run env files).2) ∧
    (∀ fe : PipelineEnv, Action.probe ∉ (process_file fe).trace) ∧
    (main_run env files).2.count Action.probe ≤ 1 := by
  refine ⟨?_, probe_not_in_process_trace, ?_⟩
  · intro hfail
    have hv : (verify_prerequisites env).1 = false := by
      unfold verify_prerequisites
      rcases hfail with h | h | h
      · rw [if_pos h]
      · by_cases hc : env.config_valid = false
        · rw [if_pos hc]
        · rw [if_neg hc, if_pos h]
      · by_cases hc : env.config_valid = false
        · rw [if_pos hc]
        · rw [if_neg hc]
          by_cases hd : env.ensure_dirs_ok = false
          · rw [if_pos hd]
          · rw [if_neg hd]
            exact h
    have hv2 : (verify_prerequisites env).2 = [] ∨
        (verify_prerequisites env).2 = [Action.probe] := by
      unfold verify_prerequisites
      split
      · exact Or.inl rfl
      · split
        · exact Or.inl rfl
        · exact Or.inr rfl
    unfold main_run
    rw [if_pos hv]
    rcases hv2 with h2 | h2 <;> rw [h2] <;> exact ⟨rfl, by decide, by decide, by decide, by decide⟩
  · unfold main_run
    split
    · rename_i hv
      have hv2 : (verify_prerequisites env).2 = [] ∨
          (verify_prerequisites env).2 = [Action.probe] := by
        unfold verify_prerequisites
        split
        · exact Or.inl rfl
        · split
          · exact Or.inl rfl
          · exact Or.inr rfl
      rcases hv2 with h2 | h2 <;> rw [h2] <;> decide
    · rename_i hv
      rw [List.count_append]
      have hcount2 : (Action.monitorStart ::
          (files.map fun fe => (process_file fe).trace).flatten).count Action.probe = 0 := by
        rw [List.count_eq_zero]
        intro hmem
        rcases List.mem_cons.mp hmem with h | h
        · exact Action.noConfusion h
        · obtain ⟨s, hs, hmem2⟩ := List.mem_flatten.mp h
          obtain ⟨fe, _, rfl⟩ := List.mem_map.mp hs
          exact probe_not_in_process_trace fe hmem2
      rw [hcount2]
      have hcount1 : ((verify_prerequisites env).2).count Action.probe ≤ 1 := by
        unfold verify_prerequisites
        split
        · decide
        · split
          · decide
          · show List.count Action.probe [Action.probe] ≤ 1
            decide
      omega

theorem startup_gate_witness :
    (main_run ⟨true, true, false, true⟩ []).1 = 1 ∧
    Action.monitorStart ∉ (main_run ⟨true, true, false, true⟩ []).2 := by
  have h := (startup_gate ⟨true, true, false, true⟩ []).1 (Or.inr (Or.inr rfl))
  exact ⟨h.1, h.2.1⟩

end DocSorter
